import Mathlib

/-!
# Verification of the AegisCore persistence-and-scoring core

Shallow embedding of the repository's persistence adapter
(`backend/core/database.py`), risk-scoring engine (`backend/detector.py`),
detection loop (`backend/run_live_detection.py`), aggregation endpoint
(`backend/main.py`) and topology projector
(`backend/services/topology_service.py`), together with proofs about the
specification's claims.

Python dictionaries (the alert records flowing through the system) are
embedded as association lists of `String × Value`; Python floats are embedded
as rationals; Python's 2-decimal `round` (banker's rounding) is embedded as
`pythonRound2`, and the built-ins `min`/`max` as the conditional expressions
`pymin`/`pymax` they denote.
-/

namespace AegisCore

/-- A JSON-like scalar value stored in an alert record (Python dict value). -/
inductive Value where
  | str (v : String)
  | num (v : ℚ)
  | bool (v : Bool)
deriving DecidableEq, Repr

/-- An alert record: a Python dict embedded as an association list. -/
abbrev Rec := List (String × Value)

/-- `d.get(k)`: first binding of key `k`, if any. -/
def recGet (r : Rec) (k : String) : Option Value :=
  (r.find? (fun p => p.1 = k)).map Prod.snd

/-- `d.get(k, default)` restricted to numeric values: returns the stored
number when the key is bound to one, otherwise the default. -/
def getNum (r : Rec) (k : String) (d : ℚ) : ℚ :=
  match recGet r k with
  | some (.num v) => v
  | _ => d

/-- `d.get(k, default)` restricted to string values. -/
def getStr (r : Rec) (k : String) (d : String) : String :=
  match recGet r k with
  | some (.str v) => v
  | _ => d

/-- Python's built-in `min` on two floats. -/
def pymin (a b : ℚ) : ℚ := if a ≤ b then a else b

/-- Python's built-in `max` on two floats. -/
def pymax (a b : ℚ) : ℚ := if a ≥ b then a else b

lemma pymin_eq_min (a b : ℚ) : pymin a b = min a b := (min_def a b).symm

lemma pymax_eq_max (a b : ℚ) : pymax a b = max a b := by
  unfold pymax
  rcases le_total a b with h | h
  · rcases eq_or_lt_of_le h with rfl | hlt
    · simp
    · rw [if_neg (not_le.mpr hlt), max_eq_right h]
  · rw [if_pos h, max_eq_left h]

/-- Python's `round(x, 2)`: round `x` to 2 decimal places with ties going to
the even hundredth (banker's rounding). -/
def pythonRound2 (x : ℚ) : ℚ :=
  ((if x * 100 - (⌊x * 100⌋ : ℚ) < 1/2 then ⌊x * 100⌋
    else if 1/2 < x * 100 - (⌊x * 100⌋ : ℚ) then ⌊x * 100⌋ + 1
    else if ⌊x * 100⌋ % 2 = 0 then ⌊x * 100⌋ else ⌊x * 100⌋ + 1 : ℤ) : ℚ) / 100

/-- `pythonRound2` fixes exact multiples of 1/100. -/
lemma pythonRound2_int (n : ℤ) : pythonRound2 ((n : ℚ) / 100) = (n : ℚ) / 100 := by
  unfold pythonRound2
  have hy : ((n : ℚ) / 100) * 100 = (n : ℚ) := by field_simp
  rw [hy, Int.floor_intCast]
  norm_num

/-! ## Risk Scoring Engine (`backend/detector.py`) -/

/-- `SEVERITY_PROFILES.get(category_label, 0.5)` from `detector.py` lines
22–27 and 48: fixed impact-weight table with default 0.5. -/
def SEVERITY_PROFILES_get (category_label : String) : ℚ :=
  if category_label = "DDoS" then 9/10
  else if category_label = "Brute Force" then 1
  else if category_label = "Port Scan" then 6/10
  else if category_label = "Normal" then 1/10
  else 1/2

/-- `RiskAssessmentEngine.compute_severity_index` (`detector.py` lines
36–54): severity = round(min(max(confidence × weight × 100, 0), 100), 2). -/
def compute_severity_index (confidence_score : ℚ) (category_label : String) : ℚ :=
  let weight_factor := SEVERITY_PROFILES_get category_label
  let raw_score := confidence_score * weight_factor * 100
  pythonRound2 (pymin (pymax raw_score 0) 100)

/-- The severity function as the specification words it (§4.3): weight table
DDoS=0.9, Brute Force=1.0, Port Scan=0.6, Normal=0.1, default 0.5; score =
clamp(confidence × weight × 100, 0, 100) rounded to 2 decimals. -/
def severity_spec (confidence : ℚ) (category : String) : ℚ :=
  let weight : ℚ :=
    if category = "DDoS" then 9/10
    else if category = "Brute Force" then 1
    else if category = "Port Scan" then 6/10
    else if category = "Normal" then 1/10
    else 1/2
  pythonRound2 (min (max (confidence * weight * 100) 0) 100)

end AegisCore

namespace AegisCore

/-- C1: for every confidence in [0,1] and every category string, the code's
severity function agrees with the spec's formula
round(clamp(c × weight(w) × 100, 0, 100), 2) with the stated weight table,
and in particular severity(1.0, "Brute Force") = 100.00,
severity(0.5, "Normal") = 5.00 and severity(0.5, "unknown-category") = 25.00. -/
theorem C1_severity_formula (c : ℚ) (w : String) (h0 : 0 ≤ c) (h1 : c ≤ 1) :
    compute_severity_index c w = severity_spec c w ∧
    compute_severity_index 1 "Brute Force" = 100 ∧
    compute_severity_index (1/2) "Normal" = 5 ∧
    compute_severity_index (1/2) "unknown-category" = 25 := by
  refine ⟨?_, ?_, ?_, ?_⟩
  · unfold compute_severity_index severity_spec SEVERITY_PROFILES_get
    simp only [pymin_eq_min, pymax_eq_max, min_comm, max_comm]
  · have h := pythonRound2_int 10000
    norm_num [compute_severity_index, SEVERITY_PROFILES_get, pymin, pymax] at h ⊢
    convert h using 2
  · have h := pythonRound2_int 500
    norm_num [compute_severity_index, SEVERITY_PROFILES_get, pymin, pymax] at h ⊢
    convert h using 2
  · have h := pythonRound2_int 2500
    norm_num [compute_severity_index, SEVERITY_PROFILES_get, pymin, pymax] at h ⊢
    convert h using 2

/-- Witness for C1 at confidence 1/2 and category "DDoS". -/
theorem C1_severity_formula_witness :
    (0:ℚ) ≤ 1/2 ∧ (1:ℚ)/2 ≤ 1 ∧
    (compute_severity_index (1/2) "DDoS" = severity_spec (1/2) "DDoS" ∧
     compute_severity_index 1 "Brute Force" = 100 ∧
     compute_severity_index (1/2) "Normal" = 5 ∧
     compute_severity_index (1/2) "unknown-category" = 25) :=
  ⟨by norm_num, by norm_num,
   C1_severity_formula (1/2) "DDoS" (by norm_num) (by norm_num)⟩

end AegisCore

namespace AegisCore

/-! ## Escalation of repeat offenders (`backend/run_live_detection.py`,
lines 66–77)

The detection loop keeps a per-run dictionary `ip_alert_counts`; for every
non-baseline (non-`Normal`) prediction it increments the count for the
source ip, and when the count exceeds 1 it replaces the freshly computed
risk by `min(risk * 1.2, 100.0)` and sets `escalation_flag = True`.
The loop is embedded as a fold over the run's sequence of non-baseline
alerts, each given as its (source ip, freshly computed base score) pair. -/

/-- One iteration of the repeat-offender logic of `run_detection`:
increment `ip_alert_counts[src]`, and escalate when the count exceeds 1.
Returns the persisted (risk, escalation_flag) pair and the updated counts. -/
def escalate_step (counts : String → ℕ) (src : String) (risk : ℚ) :
    (ℚ × Bool) × (String → ℕ) :=
  let c := counts src + 1
  let counts' : String → ℕ := fun s => if s = src then c else counts s
  if 1 < c then ((pymin (risk * (12/10)) 100, true), counts')
  else ((risk, false), counts')

/-- The whole run: process the non-baseline alerts in sequence, threading
the `ip_alert_counts` state, and collect the persisted (risk, flag) pairs. -/
def run_escalation (counts : String → ℕ) : List (String × ℚ) → List (ℚ × Bool)
  | [] => []
  | (src, r) :: rest =>
      let step := escalate_step counts src r
      step.1 :: run_escalation step.2 rest

/-- Number of alerts in `l` whose source ip is `src`. -/
def countSrc (src : String) (l : List (String × ℚ)) : ℕ :=
  (l.filter (fun p => p.1 = src)).length

lemma run_escalation_length (counts : String → ℕ) (alerts : List (String × ℚ)) :
    (run_escalation counts alerts).length = alerts.length := by
  induction alerts generalizing counts with
  | nil => rfl
  | cons a rest ih =>
      obtain ⟨src, r⟩ := a
      simp [run_escalation, ih]

lemma countSrc_cons (tgt src : String) (r : ℚ) (l : List (String × ℚ)) :
    countSrc tgt ((src, r) :: l) = (if src = tgt then 1 else 0) + countSrc tgt l := by
  simp only [countSrc, List.filter_cons]
  by_cases h : src = tgt
  · simp [h, Nat.add_comm]
  · simp [h]

lemma escalate_step_counts (counts : String → ℕ) (src : String) (r : ℚ) :
    (escalate_step counts src r).2 = fun s => if s = src then counts src + 1 else counts s := by
  by_cases h : 1 < counts src + 1 <;> simp [escalate_step, h]

lemma run_escalation_getD (alerts : List (String × ℚ)) (counts : String → ℕ)
    (i : ℕ) (h : i < alerts.length) :
    (run_escalation counts alerts).getD i (0, false) =
      (if counts (alerts.getD i ("", 0)).1 +
          countSrc (alerts.getD i ("", 0)).1 (alerts.take i) = 0
       then ((alerts.getD i ("", 0)).2, false)
       else (pymin ((alerts.getD i ("", 0)).2 * (12/10)) 100, true)) := by
  induction alerts generalizing counts i with
  | nil => exact absurd h (by simp)
  | cons a rest ih =>
      obtain ⟨src, r⟩ := a
      cases i with
      | zero =>
          simp only [run_escalation, escalate_step, List.getD_cons_zero,
            List.take_zero, countSrc, List.filter_nil, List.length_nil,
            Nat.add_zero]
          by_cases hc : counts src = 0
          · rw [if_neg (by omega : ¬ 1 < counts src + 1), if_pos hc]
          · rw [if_pos (by omega : 1 < counts src + 1), if_neg hc]
      | succ i =>
          have hi : i < rest.length := by simpa using h
          simp only [run_escalation, List.getD_cons_succ, List.take_succ_cons]
          rw [ih _ _ hi]
          have hcounts : (escalate_step counts src r).2 (rest.getD i ("", 0)).1 +
              countSrc (rest.getD i ("", 0)).1 (rest.take i) =
              counts (rest.getD i ("", 0)).1 +
              countSrc (rest.getD i ("", 0)).1 ((src, r) :: rest.take i) := by
            rw [escalate_step_counts, countSrc_cons]
            beta_reduce
            by_cases hsrc : (rest.getD i ("", 0)).1 = src
            · rw [if_pos hsrc, if_pos hsrc.symm, hsrc]
              omega
            · rw [if_neg hsrc, if_neg (fun hh => hsrc hh.symm)]
              omega
          rw [hcounts]

/-- C2: within a single run, the first non-baseline alert from a source
keeps its freshly computed score with `escalation_flag = false`; every
second and subsequent non-baseline alert from the same source is persisted
with `min(score × 1.2, 100)` and `escalation_flag = true` — the escalation
is applied to the freshly computed score each time, never compounded; and
for three alerts from one source with base scores [50, 50, 50] the
persisted outputs are [50, 60, 60] with flags [false, true, true]. -/
theorem C2_escalation (alerts : List (String × ℚ)) (i : ℕ) (h : i < alerts.length) :
    ((run_escalation (fun _ => 0) alerts).getD i (0, false) =
      (if countSrc (alerts.getD i ("", 0)).1 (alerts.take i) = 0
       then ((alerts.getD i ("", 0)).2, false)
       else (pymin ((alerts.getD i ("", 0)).2 * (12/10)) 100, true))) ∧
    run_escalation (fun _ => 0) [("X", 50), ("X", 50), ("X", 50)] =
      [(50, false), (60, true), (60, true)] := by
  constructor
  · simpa using run_escalation_getD alerts (fun _ => 0) i h
  · norm_num [run_escalation, escalate_step, pymin]

/-- Witness for C2 at the run [("X", 50), ("X", 50), ("X", 50)], index 1. -/
theorem C2_escalation_witness :
    (run_escalation (fun _ => 0) [("X", 50), ("X", 50), ("X", 50)]).getD 1 (0, false) =
      (if countSrc "X" [("X", (50:ℚ))] = 0 then ((50:ℚ), false)
       else (pymin ((50:ℚ) * (12/10)) 100, true)) := by
  have h := (C2_escalation [("X", 50), ("X", 50), ("X", 50)] 1 (by norm_num)).1
  simpa using h

end AegisCore

namespace AegisCore

/-! ## Circuit-Breaker Gate (`backend/core/database.py`, lines 39–64)

`DataAccessLayer._connect_primary` keeps two pieces of class-level state:
`_circuit_open_until` (a timestamp; 0 means the circuit is Closed) and
`_mongo_db` (the cached primary handle, `None` while disconnected).  The
outcome of an actual MongoDB handshake is an environment input, embedded as
the boolean `attempt_succeeds`.  The embedding additionally reports whether
a real connection attempt was made, so that "no network cost while Open"
is a provable statement. -/

/-- The class-level connection state of `DataAccessLayer`. -/
structure BreakerState where
  circuit_open_until : ℚ
  mongo_db : Option Unit
deriving DecidableEq, Repr

/-- `DataAccessLayer._connect_primary`: returns the primary handle (or
`none`), whether a real connection was attempted, and the new state. -/
def connect_primary (now : ℚ) (attempt_succeeds : Bool) (s : BreakerState) :
    Option Unit × Bool × BreakerState :=
  if now < s.circuit_open_until then (none, false, s)
  else
    match s.mongo_db with
    | some d => (some d, false, s)
    | none =>
        if attempt_succeeds then (some (), true, ⟨0, some ()⟩)
        else (none, true, ⟨now + 10, none⟩)

/-- The state left behind by a connection/handshake failure at time `t`:
`_circuit_open_until = t + 10` and no cached handle. -/
def failed_state (t : ℚ) : BreakerState := ⟨t + 10, none⟩

/-- C3: after a primary connection failure at time `t` (which leaves the
breaker Open until `t + 10` with no handle), every call strictly before
`t + 10` returns Unavailable without attempting a connection and leaves the
state unchanged; the first call at or after `t + 10` attempts a real
connection; a successful attempt resets the breaker to Closed
(`_circuit_open_until = 0`) and returns a handle; a failed attempt re-opens
the breaker for a fresh 10-second cooldown from the time of that attempt.
Moreover a failure of any disconnected, non-open state at time `t` produces
exactly `failed_state t`. -/
theorem C3_circuit_breaker (t now : ℚ) (b : Bool) :
    (now < t + 10 →
      connect_primary now b (failed_state t) = (none, false, failed_state t)) ∧
    (t + 10 ≤ now →
      (connect_primary now b (failed_state t)).2.1 = true) ∧
    (t + 10 ≤ now →
      connect_primary now true (failed_state t) = (some (), true, ⟨0, some ()⟩)) ∧
    (t + 10 ≤ now →
      connect_primary now false (failed_state t) = (none, true, failed_state now)) ∧
    (∀ s : BreakerState, s.circuit_open_until ≤ t → s.mongo_db = none →
      connect_primary t false s = (none, true, failed_state t)) := by
  refine ⟨?_, ?_, ?_, ?_, ?_⟩
  · intro hlt
    simp [connect_primary, failed_state, hlt]
  · intro hle
    cases b <;> simp [connect_primary, failed_state, not_lt.mpr hle]
  · intro hle
    simp [connect_primary, failed_state, not_lt.mpr hle]
  · intro hle
    simp [connect_primary, failed_state, not_lt.mpr hle]
  · intro s hle hdb
    simp [connect_primary, failed_state, hdb, not_lt.mpr hle]

/-- Witness for C3: a failure at t = 0, probed at times 5 and 10. -/
theorem C3_circuit_breaker_witness :
    connect_primary 5 true (failed_state 0) = (none, false, failed_state 0) ∧
    (connect_primary 10 true (failed_state 0)).2.1 = true ∧
    connect_primary 10 true (failed_state 0) = (some (), true, ⟨0, some ()⟩) ∧
    connect_primary 10 false (failed_state 0) = (none, true, failed_state 10) ∧
    connect_primary 0 false (⟨0, none⟩ : BreakerState) = (none, true, failed_state 0) :=
  ⟨(C3_circuit_breaker 0 5 true).1 (by norm_num),
   (C3_circuit_breaker 0 10 true).2.1 (by norm_num),
   (C3_circuit_breaker 0 10 true).2.2.1 (by norm_num),
   (C3_circuit_breaker 0 10 false).2.2.2.1 (by norm_num),
   (C3_circuit_breaker 0 0 false).2.2.2.2 ⟨0, none⟩ (by norm_num) rfl⟩

end AegisCore

namespace AegisCore

/-! ## Persistence Adapter reads (`backend/core/database.py`, lines 71–124)

`query_security_events` tries the primary store first (a sorted, limited
read) and falls back to `_query_local_fallback`, which serves the in-memory
cache when populated, otherwise loads the fallback JSON file (populating the
cache), and returns `[]` when the file is absent or unreadable (the
exception is caught).  Sorting is `sorted(data, key=lambda x:
x.get('timestamp', ''), reverse=True)` — descending lexicographic order of
the timestamp strings; `limit` is applied only when truthy (non-zero). -/

/-- Descending timestamp order used by `_slice_and_sort` (and by the
primary read `sort("timestamp", -1)`): `a` comes no later than `b` when
`b`'s timestamp string is ≤ `a`'s. -/
def ts_desc (a b : Rec) : Prop := getStr b "timestamp" "" ≤ getStr a "timestamp" ""

instance : DecidableRel ts_desc := fun a b =>
  inferInstanceAs (Decidable (getStr b "timestamp" "" ≤ getStr a "timestamp" ""))

instance : IsTotal Rec ts_desc :=
  ⟨fun a b => Or.symm (le_total (getStr a "timestamp" "") (getStr b "timestamp" ""))⟩

instance : IsTrans Rec ts_desc :=
  ⟨fun _ _ _ hab hbc => le_trans hbc hab⟩

/-- The full list sorted newest-first by timestamp string. -/
def sortByTimestampDesc (data : List Rec) : List Rec :=
  data.insertionSort ts_desc

lemma sortByTimestampDesc_sorted (data : List Rec) :
    List.Sorted ts_desc (sortByTimestampDesc data) :=
  List.sorted_insertionSort ts_desc data

lemma sortByTimestampDesc_perm (data : List Rec) :
    (sortByTimestampDesc data).Perm data :=
  List.perm_insertionSort ts_desc data

/-- `DataAccessLayer._slice_and_sort` (lines 117–124): sort newest first,
then apply the limit only when it is truthy (non-zero). -/
def slice_and_sort (data : List Rec) (limit : ℕ) : List Rec :=
  let sorted_data := sortByTimestampDesc data
  if limit ≠ 0 then sorted_data.take limit else sorted_data

/-- State of the fallback JSON file on disk. -/
inductive FallbackFile where
  | absent
  | unreadable
  | readable (data : List Rec)
deriving DecidableEq

/-- `DataAccessLayer._query_local_fallback` (lines 96–115): serve the
in-memory cache when populated; otherwise read the file, populate the cache
and serve it; on a missing or unreadable file return `[]` (the exception is
caught — nothing propagates to the caller).  Returns the result together
with the memory cache left behind. -/
def query_local_fallback (cache : Option (List Rec)) (file : FallbackFile)
    (limit : ℕ) : List Rec × Option (List Rec) :=
  match cache with
  | some c => (slice_and_sort c limit, some c)
  | none =>
      match file with
      | .readable data => (slice_and_sort data limit, some data)
      | _ => ([], none)

/-- `DataAccessLayer.query_security_events` (lines 71–94): on an available
primary connection perform the sorted read, applying `.limit(limit)` only
when `limit` is truthy; otherwise fall back to `_query_local_fallback`.
`primary` is the collection contents when a primary connection is available,
`none` when the circuit-breaker gate reports Unavailable (or the primary
query failed). -/
def query_security_events (primary : Option (List Rec)) (cache : Option (List Rec))
    (file : FallbackFile) (limit : ℕ) : List Rec × Option (List Rec) :=
  match primary with
  | some docs =>
      let sorted := sortByTimestampDesc docs
      (if limit ≠ 0 then sorted.take limit else sorted, cache)
  | none => query_local_fallback cache file limit

end AegisCore

namespace AegisCore

/-- C7: for every stored collection and every positive limit,
`_slice_and_sort` returns the records sorted newest first by timestamp
(descending order of the timestamp strings — the sorted list is a
permutation of the input) truncated to at most `limit` records; and
`query(limit = 2)` over a cache with timestamps "10:02", "10:05", "10:01"
returns the records timestamped "10:05" then "10:02". -/
theorem C7_query_sorted_limited (data : List Rec) (limit : ℕ) (h : 0 < limit) :
    slice_and_sort data limit = (sortByTimestampDesc data).take limit ∧
    List.Sorted ts_desc (sortByTimestampDesc data) ∧
    (sortByTimestampDesc data).Perm data ∧
    (slice_and_sort data limit).length ≤ limit ∧
    (query_local_fallback
        (some [[("timestamp", Value.str "10:02")], [("timestamp", Value.str "10:05")],
               [("timestamp", Value.str "10:01")]])
        FallbackFile.absent 2).1 =
      [[("timestamp", Value.str "10:05")], [("timestamp", Value.str "10:02")]] := by
  refine ⟨?_, sortByTimestampDesc_sorted data, sortByTimestampDesc_perm data, ?_, ?_⟩
  · simp [slice_and_sort, Nat.pos_iff_ne_zero.mp h]
  · simp only [slice_and_sort, Nat.pos_iff_ne_zero.mp h, ne_eq,
      not_false_iff, if_true, sortByTimestampDesc]
    exact List.length_take_le limit _
  · simp +decide [query_local_fallback, slice_and_sort, sortByTimestampDesc,
      List.insertionSort, List.orderedInsert, ts_desc, getStr, recGet,
      List.find?]

/-- Witness for C7 at the three-record cache and limit 2. -/
theorem C7_query_sorted_limited_witness :
    slice_and_sort [[("timestamp", Value.str "10:02")]] 2 =
      (sortByTimestampDesc [[("timestamp", Value.str "10:02")]]).take 2 ∧
    (query_local_fallback
        (some [[("timestamp", Value.str "10:02")], [("timestamp", Value.str "10:05")],
               [("timestamp", Value.str "10:01")]])
        FallbackFile.absent 2).1 =
      [[("timestamp", Value.str "10:05")], [("timestamp", Value.str "10:02")]] := by
  have h := C7_query_sorted_limited [[("timestamp", Value.str "10:02")]] 2 (by norm_num)
  exact ⟨h.1, h.2.2.2.2⟩

/-- C8: when the primary store is unavailable, the in-memory cache is
unpopulated, and the fallback file is absent or unreadable, the query
returns an empty sequence (the read is a total function — the source
catches the read exception, so nothing is raised to the caller). -/
theorem C8_query_empty_on_total_failure (limit : ℕ) :
    query_security_events none none FallbackFile.absent limit = ([], none) ∧
    query_security_events none none FallbackFile.unreadable limit = ([], none) :=
  ⟨rfl, rfl⟩

/-- C10: a falsy (zero) limit disables truncation in both paths: the
primary read returns the whole collection sorted newest first, and the
fallback path serves the whole cached snapshot sorted newest first (in
both cases a permutation of the stored records, in sorted order). -/
theorem C10_zero_limit_returns_all (docs data : List Rec) (cache : Option (List Rec))
    (file : FallbackFile) :
    (query_security_events (some docs) cache file 0).1 = sortByTimestampDesc docs ∧
    (query_security_events none (some data) file 0).1 = sortByTimestampDesc data ∧
    slice_and_sort data 0 = sortByTimestampDesc data ∧
    (sortByTimestampDesc data).Perm data ∧
    List.Sorted ts_desc (sortByTimestampDesc data) :=
  ⟨by simp [query_security_events], by simp [query_security_events, query_local_fallback, slice_and_sort],
   by simp [slice_and_sort], sortByTimestampDesc_perm data, sortByTimestampDesc_sorted data⟩

end AegisCore

namespace AegisCore

/-! ## Persistence Adapter writes (`backend/core/database.py`, lines 126–137)

`update_fallback_cache` first assigns `cls._memory_cache = data`
(unconditional replacement), then — if the fallback JSON file exists —
rewrites it with the same snapshot.  The two assignments are embedded as two
sequenced steps on a store state, so the ordering (cache replaced before
durable persistence is attempted) is visible in the model. -/

/-- The adapter's shared state: the in-memory cache, and the fallback file
contents (`none` while the file does not exist). -/
structure StoreState where
  memory_cache : Option (List Rec)
  fallback_file : Option (List Rec)
deriving DecidableEq

/-- First statement of `update_fallback_cache`: `cls._memory_cache = data`. -/
def cache_write_step (data : List Rec) (s : StoreState) : StoreState :=
  { s with memory_cache := some data }

/-- Second statement of `update_fallback_cache`: rewrite the fallback file
with the snapshot, but only when the file exists. -/
def fallback_persist_step (data : List Rec) (s : StoreState) : StoreState :=
  { s with fallback_file := s.fallback_file.map (fun _ => data) }

/-- `DataAccessLayer.update_fallback_cache`: cache replacement followed by
durable persistence. -/
def update_fallback_cache (data : List Rec) (s : StoreState) : StoreState :=
  fallback_persist_step data (cache_write_step data s)

/-- C6: a write replaces the in-memory cache with the given records
unconditionally (whatever the cache held before), and it does so before the
durable persistence step runs (the cache-write step leaves the file
untouched and the persistence step starts from a state whose cache already
holds the new snapshot); after the write, whenever the fallback file is
populated it holds exactly the written snapshot, which is also exactly what
the cache holds — so no reader can observe a durable write not yet
reflected in the cache. -/
theorem C6_write_through (data : List Rec) (s : StoreState) :
    (update_fallback_cache data s).memory_cache = some data ∧
    (cache_write_step data s).fallback_file = s.fallback_file ∧
    (cache_write_step data s).memory_cache = some data ∧
    (∀ l : List Rec, (update_fallback_cache data s).fallback_file = some l → l = data) ∧
    (∀ l : List Rec, (update_fallback_cache data s).fallback_file = some l →
      (update_fallback_cache data s).memory_cache = some l) := by
  refine ⟨rfl, rfl, rfl, ?_, ?_⟩ <;>
    · intro l hl
      cases hfile : s.fallback_file <;>
        simp [update_fallback_cache, fallback_persist_step, cache_write_step, hfile] at hl ⊢ <;>
        simp [hl]

/-- Witness for C6: writing one record over a populated file. -/
theorem C6_write_through_witness :
    (update_fallback_cache [[("id", Value.str "a")]]
        ⟨some [], some [[("id", Value.str "old")]]⟩).memory_cache =
      some [[("id", Value.str "a")]] ∧
    ([[("id", Value.str "old")]] : List Rec) = [[("id", Value.str "old")]] ∧
    (update_fallback_cache [[("id", Value.str "a")]]
        ⟨some [], some [[("id", Value.str "old")]]⟩).memory_cache =
      some [[("id", Value.str "a")]] := by
  have h := C6_write_through [[("id", Value.str "a")]]
    ⟨some [], some [[("id", Value.str "old")]]⟩
  refine ⟨h.1, rfl, ?_⟩
  exact h.2.2.2.2 [[("id", Value.str "a")]] (by rfl)

end AegisCore

namespace AegisCore

/-! ## Alert record schema (`backend/run_live_detection.py`, lines 81–94)

Every persisted alert record is the dictionary assembled by
`run_detection`; its keys are fixed by that constructor (notably the
destination ip is stored under `destination_ip` and the model probability
under `confidence`). -/

/-- The threat dictionary assembled by `run_detection` (lines 81–94). -/
def mk_threat (id ts source_ip dest_ip : String) (dest_port : ℚ)
    (protocol : String) (packet_size : ℚ) (label : String)
    (confidence risk : ℚ) (esc : Bool) : Rec :=
  [("id", .str id),
   ("timestamp", .str ts),
   ("source_ip", .str source_ip),
   ("destination_ip", .str dest_ip),
   ("destination_port", .num dest_port),
   ("protocol", .str protocol),
   ("packet_size", .num packet_size),
   ("predicted_label", .str label),
   ("confidence", .num confidence),
   ("risk_score", .num risk),
   ("status", .str "Active"),
   ("escalation_flag", .bool esc)]

/-! ## Aggregation Engine (`backend/main.py`, lines 228–263)

`get_aggregated_threats` groups the fetched records by
`(t['source_ip'], t['predicted_label'])` (a Python dict keyed by that pair,
iterated in insertion order), accumulating `count`,
`total_confidence += t.get('attack_probability', 0)`,
`max_risk = max(max_risk, t.get('risk_score', 0))` and the lexicographically
greatest `t['timestamp']`; it then emits one row per group with
`avg_confidence = round(total_confidence / count, 2)` and sorts the rows by
`max_risk` descending. -/

/-- One in-progress aggregation group (`aggregation[key]` in the source). -/
structure AggAcc where
  source_ip : String
  attack_type : String
  count : ℕ
  total_confidence : ℚ
  max_risk : ℚ
  last_seen : String
deriving DecidableEq, Repr

/-- The per-record mutation of a group: `count += 1`,
`total_confidence += t.get('attack_probability', 0)`,
`max_risk = max(max_risk, t.get('risk_score', 0))`,
`last_seen = t['timestamp']` when that is greater. -/
def agg_update (a : AggAcc) (t : Rec) : AggAcc :=
  let ts := getStr t "timestamp" ""
  { a with
    count := a.count + 1
    total_confidence := a.total_confidence + getNum t "attack_probability" 0
    max_risk := pymax a.max_risk (getNum t "risk_score" 0)
    last_seen := if a.last_seen < ts then ts else a.last_seen }

/-- One loop iteration of `get_aggregated_threats`: create the group on
first sight of its key, then apply the per-record mutation. -/
def agg_step (acc : List AggAcc) (t : Rec) : List AggAcc :=
  let sip := getStr t "source_ip" ""
  let lbl := getStr t "predicted_label" ""
  if acc.any (fun a => a.source_ip = sip ∧ a.attack_type = lbl) then
    acc.map (fun a =>
      if a.source_ip = sip ∧ a.attack_type = lbl then agg_update a t else a)
  else
    acc ++ [agg_update
      { source_ip := sip, attack_type := lbl, count := 0,
        total_confidence := 0, max_risk := 0,
        last_seen := getStr t "timestamp" "" } t]

/-- A finished aggregation row. -/
structure AggRow where
  source_ip : String
  attack_type : String
  count : ℕ
  avg_confidence : ℚ
  max_risk : ℚ
  last_seen : String
deriving DecidableEq, Repr

/-- `agg["avg_confidence"] = round(agg["total_confidence"] / agg["count"], 2)`. -/
def agg_finalize (a : AggAcc) : AggRow :=
  { source_ip := a.source_ip, attack_type := a.attack_type, count := a.count,
    avg_confidence := pythonRound2 (a.total_confidence / (a.count : ℚ)),
    max_risk := a.max_risk, last_seen := a.last_seen }

/-- Descending `max_risk` order of the final `sorted(..., reverse=True)`. -/
def risk_desc (a b : AggRow) : Prop := b.max_risk ≤ a.max_risk

instance : DecidableRel risk_desc := fun a b =>
  inferInstanceAs (Decidable (b.max_risk ≤ a.max_risk))

instance : IsTotal AggRow risk_desc :=
  ⟨fun a b => Or.symm (le_total a.max_risk b.max_risk)⟩

instance : IsTrans AggRow risk_desc :=
  ⟨fun _ _ _ hab hbc => le_trans hbc hab⟩

/-- `get_aggregated_threats` (`main.py` lines 228–263) over the fetched
records. -/
def get_aggregated_threats (threats : List Rec) : List AggRow :=
  ((threats.foldl agg_step []).map agg_finalize).insertionSort risk_desc

/-- The two-record failing input of claim C4: two alerts from source "A"
labelled "DDoS" with confidences 0.8 and 0.6 and risk scores 90 and 70,
stored under the persisted alert-record schema of `run_detection`. -/
def C4_rec1 : Rec :=
  mk_threat "t1" "2024-01-01 10:00:00" "A" "10.0.0.5" 80 "TCP" 120 "DDoS" (8/10) 90 false

/-- Second record of the C4 failing input. -/
def C4_rec2 : Rec :=
  mk_threat "t2" "2024-01-01 10:01:00" "A" "10.0.0.5" 80 "TCP" 130 "DDoS" (6/10) 70 false

end AegisCore

namespace AegisCore

/-- C4 (code bug): on the claim's own example — two records from ip "A"
labelled "DDoS" with confidences 0.8 and 0.6 (stored under the schema key
`confidence`) and risk scores 90 and 70 — the aggregation produces the
single expected group with count 2, max_risk 90 and the later timestamp,
but its `avg_confidence` is 0.00, not the claimed 0.70: the code reads
`t.get('attack_probability', 0)`, a key no persisted alert record carries,
so every confidence contributes its default 0. -/
theorem C4_aggregation_code_bug :
    get_aggregated_threats [C4_rec1, C4_rec2] =
      [{ source_ip := "A", attack_type := "DDoS", count := 2,
         avg_confidence := 0, max_risk := 90,
         last_seen := "2024-01-01 10:01:00" }] ∧
    (get_aggregated_threats [C4_rec1, C4_rec2]).map AggRow.avg_confidence ≠ [7/10] := by
  have hrow : get_aggregated_threats [C4_rec1, C4_rec2] =
      [{ source_ip := "A", attack_type := "DDoS", count := 2,
         avg_confidence := 0, max_risk := 90,
         last_seen := "2024-01-01 10:01:00" }] := by
    have h1 : agg_step [] C4_rec1 =
        [AggAcc.mk "A" "DDoS" 1 0 90 "2024-01-01 10:00:00"] := by
      simp [agg_step, agg_update, C4_rec1, mk_threat, getStr, getNum, recGet,
        List.find?, pymax]
    have h2 : agg_step [AggAcc.mk "A" "DDoS" 1 0 90 "2024-01-01 10:00:00"] C4_rec2 =
        [AggAcc.mk "A" "DDoS" 2 0 90 "2024-01-01 10:01:00"] := by
      simp [agg_step, agg_update, C4_rec2, mk_threat, getStr, getNum, recGet,
        List.find?, pymax]
      exact ⟨by norm_num, by decide⟩
    have hround : pythonRound2 0 = 0 := by
      norm_num [pythonRound2]
    unfold get_aggregated_threats
    rw [List.foldl_cons, List.foldl_cons, List.foldl_nil, h1, h2]
    simp [agg_finalize, List.insertionSort, List.orderedInsert, hround]
  refine ⟨hrow, ?_⟩
  rw [hrow]
  norm_num

end AegisCore

namespace AegisCore

/-! ## Topology Projector (`backend/services/topology_service.py`, lines 36–76)

`get_topology_status` fetches recent records, keeps those whose `status`
differs from `"Resolved"`, and, per static node, collects the active
records whose `dest_ip` key equals the node's ip (`t.get('dest_ip') ==
node['ip']`), deriving the node's status and annotations from that subset.
The fetched record list is the input of the embedding. -/

/-- A topology node after the per-query enrichment: the static identity
(`id`, node type, `ip`, layout coordinates) plus the derived fields. -/
structure TopoNode where
  node_id : String
  node_type : String
  ip : String
  status : String
  x : ℤ
  y : ℤ
  threats : ℕ
  latest_threat : Option Value
deriving DecidableEq, Repr

/-- `TopologyService.STATIC_NODES` (lines 15–24), all `"Healthy"`, with the
derived fields not yet populated. -/
def STATIC_NODES : List TopoNode :=
  [⟨"firewall-1", "Firewall", "192.168.1.1", "Healthy", 100, 50, 0, none⟩,
   ⟨"router-core", "Router", "10.0.0.1", "Healthy", 250, 50, 0, none⟩,
   ⟨"switch-main", "Switch", "10.0.0.2", "Healthy", 250, 150, 0, none⟩,
   ⟨"server-db", "Database", "10.0.0.5", "Healthy", 150, 250, 0, none⟩,
   ⟨"server-app", "Server", "10.0.0.10", "Healthy", 350, 250, 0, none⟩,
   ⟨"workstation-1", "Client", "10.0.0.15", "Healthy", 100, 350, 0, none⟩,
   ⟨"workstation-2", "Client", "10.0.0.16", "Healthy", 250, 350, 0, none⟩,
   ⟨"workstation-3", "Client", "10.0.0.17", "Healthy", 400, 350, 0, none⟩]

/-- `TopologyService.STATIC_LINKS` (lines 26–34). -/
def STATIC_LINKS : List (String × String) :=
  [("firewall-1", "router-core"), ("router-core", "switch-main"),
   ("switch-main", "server-db"), ("switch-main", "server-app"),
   ("switch-main", "workstation-1"), ("switch-main", "workstation-2"),
   ("switch-main", "workstation-3")]

/-- `max(gen, default=0)`: Python's max of a list with a default for the
empty case. -/
def pymax_list (l : List ℚ) : ℚ :=
  match l with
  | [] => 0
  | x :: xs => xs.foldl pymax x

/-- The per-node body of the loop in `get_topology_status` (lines 53–71):
filter the active threats on `t.get('dest_ip') == node['ip']`, then derive
status, threat count and latest threat. -/
def update_node (active_threats : List Rec) (node : TopoNode) : TopoNode :=
  let node_threats := active_threats.filter
    (fun t => recGet t "dest_ip" = some (.str node.ip))
  if node_threats.isEmpty then
    { node with threats := 0, status := "Healthy" }
  else
    let max_risk := pymax_list (node_threats.map (fun t => getNum t "risk_score" 0))
    let status :=
      if 80 ≤ max_risk then "Compromised"
      else if 60 ≤ max_risk then "Warning"
      else node.status
    { node with
      status := status
      threats := node_threats.length
      latest_threat := recGet (node_threats.headD []) "predicted_label" }

/-- `TopologyService.get_topology_status` over the fetched records: drop
records whose status is `"Resolved"`, enrich every static node, return the
static links unmodified. -/
def get_topology_status (fetched : List Rec) : List TopoNode × List (String × String) :=
  let active_threats := fetched.filter (fun t => recGet t "status" ≠ some (.str "Resolved"))
  (STATIC_NODES.map (update_node active_threats), STATIC_LINKS)

/-- The failing input of claim C5: a single active alert, built by the
persisted alert-record schema of `run_detection`, whose destination ip
(key `destination_ip`) is "10.0.0.10" and whose risk score is 85. -/
def C5_alert : Rec :=
  mk_threat "t9" "2024-01-01 10:00:00" "192.168.1.77" "10.0.0.10" 443 "TCP" 1200 "DDoS" (9/10) 85 false

end AegisCore

namespace AegisCore

/-- C5 (code bug): with one active alert whose destination ip
(schema key `destination_ip`) is "10.0.0.10" and risk score 85, the claim
expects the node with ip "10.0.0.10" to be "Compromised" with threat count
1 — but the code matches alerts on the key `dest_ip`, which no persisted
alert record carries, so no alert ever matches any node: every node,
including the one with ip "10.0.0.10", comes back "Healthy" with 0 threats
(links unmodified). -/
theorem C5_topology_code_bug :
    (∀ n ∈ (get_topology_status [C5_alert]).1, n.status = "Healthy" ∧ n.threats = 0) ∧
    ¬ (∃ n ∈ (get_topology_status [C5_alert]).1,
        n.ip = "10.0.0.10" ∧ n.status = "Compromised" ∧ n.threats = 1) ∧
    (get_topology_status [C5_alert]).2 = STATIC_LINKS := by
  refine ⟨?_, ?_, rfl⟩ <;> decide

end AegisCore

namespace AegisCore

/-! ## Feature vectorization (`backend/detector.py`, lines 63–94)

`TrafficClassifier.vectorize_payload` walks `REQUIRED_FEATURES` in order;
each feature absent from the frame's columns is added — `packet_size` is
derived as `total_l_fwd_packets / total_fwd_packets.replace(0, 1)` when
both of those columns are present, everything else is imputed to the
constant 0.0 — and finally the frame is restricted to the required columns
with `fillna(0)`.  A DataFrame is embedded as a column-name list plus one
cell function per row (`none` embeds a NaN / missing value; cells at names
outside `cols` are irrelevant). -/

/-- A telemetry DataFrame. -/
structure Frame where
  cols : List String
  rows : List (String → Option ℚ)

/-- `TrafficClassifier.REQUIRED_FEATURES` (lines 63–69). -/
def REQUIRED_FEATURES : List String :=
  ["dest_port", "flow_duration", "total_fwd_packets", "total_l_fwd_packets",
   "packet_size"]

/-- The cell written into a newly added feature column (lines 82–91): the
`packet_size` derivation when its two source columns are present —
`NaN` cells propagate, a zero divisor is replaced by 1 — otherwise the
0.0 imputation. -/
def derived_value (v : Frame) (row : String → Option ℚ) (feature : String) :
    Option ℚ :=
  if feature = "packet_size" then
    if "total_l_fwd_packets" ∈ v.cols ∧ "total_fwd_packets" ∈ v.cols then
      match row "total_l_fwd_packets", row "total_fwd_packets" with
      | some a, some b => some (a / (if b = 0 then 1 else b))
      | _, _ => none
    else some 0
  else some 0

/-- One iteration of the `for feature in REQUIRED_FEATURES` loop: a feature
already present is left alone, otherwise its column is appended with the
derived (or imputed) cell in every row. -/
def add_feature (v : Frame) (feature : String) : Frame :=
  if feature ∈ v.cols then v
  else
    { cols := v.cols ++ [feature]
      rows := v.rows.map (fun row s =>
        if s = feature then derived_value v row feature else row s) }

/-- The model-facing output frame: exactly the required columns, and every
cell a number (`fillna(0)` leaves no missing values). -/
structure OutFrame where
  cols : List String
  rows : List (String → ℚ)

/-- `TrafficClassifier.vectorize_payload` (lines 71–94). -/
def vectorize_payload (telemetry_frame : Frame) : OutFrame :=
  let vector := REQUIRED_FEATURES.foldl add_feature telemetry_frame
  { cols := REQUIRED_FEATURES
    rows := vector.rows.map (fun row s => (row s).getD 0) }

/-- The cell of input frame `v` at row `i`, column `s`. -/
def cellVal (v : Frame) (i : ℕ) (s : String) : Option ℚ :=
  (v.rows.getD i (fun _ => none)) s

/-- The cell of output frame `F` at row `i`, column `s`. -/
def outVal (F : OutFrame) (i : ℕ) (s : String) : ℚ :=
  (F.rows.getD i (fun _ => 0)) s

lemma getD_map_rows {α β : Type} (l : List α) (g : α → β) (i : ℕ) (d : β)
    (d' : α) (hi : i < l.length) : (l.map g).getD i d = g (l.getD i d') := by
  rw [List.getD_eq_getElem _ _ (by simpa using hi), List.getD_eq_getElem _ _ hi,
    List.getElem_map]

lemma add_feature_eq_of_mem {v : Frame} {f : String} (h : f ∈ v.cols) :
    add_feature v f = v := by
  unfold add_feature
  rw [if_pos h]

lemma add_feature_cols_mem (v : Frame) (f x : String) :
    x ∈ (add_feature v f).cols ↔ x ∈ v.cols ∨ x = f := by
  unfold add_feature
  split
  · constructor
    · exact Or.inl
    · rintro (hx | rfl) <;> assumption
  · simp

lemma add_feature_rows_length (v : Frame) (f : String) :
    (add_feature v f).rows.length = v.rows.length := by
  unfold add_feature
  split <;> simp

lemma add_feature_cellVal_ne {v : Frame} {f s : String} (h : s ≠ f) (i : ℕ) :
    cellVal (add_feature v f) i s = cellVal v i s := by
  unfold add_feature cellVal
  split
  · rfl
  · by_cases hi : i < v.rows.length
    · rw [getD_map_rows _ _ _ _ (fun _ => none) hi]
      simp [h]
    · rw [List.getD_eq_default _ _ (by simpa using Nat.le_of_not_lt hi),
        List.getD_eq_default _ _ (Nat.le_of_not_lt hi)]

lemma add_feature_cellVal_mem_cols {v : Frame} {f s : String}
    (hs : s ∈ v.cols) (i : ℕ) :
    cellVal (add_feature v f) i s = cellVal v i s := by
  by_cases hf : f ∈ v.cols
  · rw [add_feature_eq_of_mem hf]
  · by_cases hsf : s = f
    · exact absurd (hsf ▸ hs) hf
    · exact add_feature_cellVal_ne hsf i

lemma add_feature_cellVal_self {v : Frame} {f : String} (hf : f ∉ v.cols)
    {i : ℕ} (hi : i < v.rows.length) :
    cellVal (add_feature v f) i f =
      derived_value v (v.rows.getD i (fun _ => none)) f := by
  unfold add_feature cellVal
  rw [if_neg hf]
  rw [getD_map_rows _ _ _ _ (fun _ => none) hi]
  simp

lemma foldl_cols_mem (fs : List String) (v : Frame) (x : String) :
    x ∈ (fs.foldl add_feature v).cols ↔ x ∈ v.cols ∨ x ∈ fs := by
  induction fs generalizing v with
  | nil => simp
  | cons g rest ih =>
      rw [List.foldl_cons, ih, add_feature_cols_mem]
      simp [or_assoc]

lemma foldl_rows_length (fs : List String) (v : Frame) :
    (fs.foldl add_feature v).rows.length = v.rows.length := by
  induction fs generalizing v with
  | nil => rfl
  | cons g rest ih =>
      rw [List.foldl_cons, ih, add_feature_rows_length]

lemma foldl_cellVal_not_mem {fs : List String} {v : Frame} {s : String}
    (hs : s ∉ fs) (i : ℕ) :
    cellVal (fs.foldl add_feature v) i s = cellVal v i s := by
  induction fs generalizing v with
  | nil => rfl
  | cons g rest ih =>
      rw [List.foldl_cons,
        ih (fun h => hs (List.mem_cons_of_mem g h)),
        add_feature_cellVal_ne
          (fun h => hs (by rw [h]; exact List.mem_cons_self g rest)) i]

lemma foldl_cellVal_mem_cols {fs : List String} {v : Frame} {s : String}
    (hs : s ∈ v.cols) (i : ℕ) :
    cellVal (fs.foldl add_feature v) i s = cellVal v i s := by
  induction fs generalizing v with
  | nil => rfl
  | cons g rest ih =>
      rw [List.foldl_cons,
        ih ((add_feature_cols_mem v g s).mpr (Or.inl hs)),
        add_feature_cellVal_mem_cols hs i]

/-- Value of an imputed (non-`packet_size`) feature after the loop. -/
lemma foldl_cellVal_imputed {fs : List String} {v : Frame} {f : String}
    (hmem : f ∈ fs) (hcols : f ∉ v.cols) (hps : f ≠ "packet_size") {i : ℕ}
    (hi : i < v.rows.length) :
    cellVal (fs.foldl add_feature v) i f = some 0 := by
  induction fs generalizing v with
  | nil => exact absurd hmem (List.not_mem_nil f)
  | cons g rest ih =>
      rw [List.foldl_cons]
      by_cases hfg : f = g
      · subst hfg
        rw [foldl_cellVal_mem_cols
            ((add_feature_cols_mem v f f).mpr (Or.inr rfl)) i,
          add_feature_cellVal_self hcols hi]
        unfold derived_value
        rw [if_neg hps]
      · have hmem' : f ∈ rest := by
          rcases List.mem_cons.mp hmem with h | h
          · exact absurd h hfg
          · exact h
        have hcols' : f ∉ (add_feature v g).cols := by
          rw [add_feature_cols_mem]
          rintro (h | h)
          · exact hcols h
          · exact hfg h
        exact ih hmem' hcols'
          (by rw [add_feature_rows_length]; exact hi)

/-- Value of the derived `packet_size` feature after the loop, when it is
absent from the input but both source columns are present. -/
lemma foldl_cellVal_packet_size {fs : List String} {v : Frame}
    (hmem : "packet_size" ∈ fs) (hcols : "packet_size" ∉ v.cols)
    (htl : "total_l_fwd_packets" ∈ v.cols) (htf : "total_fwd_packets" ∈ v.cols)
    {i : ℕ} (hi : i < v.rows.length) :
    cellVal (fs.foldl add_feature v) i "packet_size" =
      (match cellVal v i "total_l_fwd_packets", cellVal v i "total_fwd_packets" with
       | some a, some b => some (a / (if b = 0 then 1 else b))
       | _, _ => none) := by
  induction fs generalizing v with
  | nil => exact absurd hmem (List.not_mem_nil _)
  | cons g rest ih =>
      rw [List.foldl_cons]
      by_cases hg : "packet_size" = g
      · subst hg
        rw [foldl_cellVal_mem_cols
            ((add_feature_cols_mem v _ _).mpr (Or.inr rfl)) i,
          add_feature_cellVal_self hcols hi]
        unfold derived_value
        rw [if_pos rfl, if_pos ⟨htl, htf⟩]
        rfl
      · have hmem' : "packet_size" ∈ rest := by
          rcases List.mem_cons.mp hmem with h | h
          · exact absurd h hg
          · exact h
        have hcols' : "packet_size" ∉ (add_feature v g).cols := by
          rw [add_feature_cols_mem]
          rintro (h | h)
          · exact hcols h
          · exact hg h
        rw [ih hmem' hcols'
            ((add_feature_cols_mem v g _).mpr (Or.inl htl))
            ((add_feature_cols_mem v g _).mpr (Or.inl htf))
            (by rw [add_feature_rows_length]; exact hi),
          add_feature_cellVal_mem_cols htl i,
          add_feature_cellVal_mem_cols htf i]

/-- The output cell is the folded frame's cell with `fillna(0)` applied. -/
lemma outVal_eq_cellVal (frame : Frame) {i : ℕ} (hi : i < frame.rows.length)
    (s : String) :
    outVal (vectorize_payload frame) i s =
      (cellVal (REQUIRED_FEATURES.foldl add_feature frame) i s).getD 0 := by
  unfold vectorize_payload outVal cellVal
  rw [getD_map_rows _ _ _ _ (fun _ => none)
    (by rw [foldl_rows_length]; exact hi)]

end AegisCore

namespace AegisCore

/-- C9: vectorization is total (a Lean function) and always emits exactly
the required feature columns, with one all-numeric row per input row (no
missing values survive `fillna(0)`); when `packet_size` is absent from the
input and both `total_l_fwd_packets` and `total_fwd_packets` are present,
its cell is their quotient with a zero divisor replaced by 1 — the divisor
`if b = 0 then 1 else b` is never zero, so no division by zero can occur —
(a row missing either operand yields the NaN that `fillna` turns into 0);
and every other absent required feature is imputed to 0. -/
theorem C9_vectorize_total_and_derived (frame : Frame) (i : ℕ)
    (hi : i < frame.rows.length) :
    (vectorize_payload frame).cols = REQUIRED_FEATURES ∧
    (vectorize_payload frame).rows.length = frame.rows.length ∧
    (∀ b : ℚ, (if b = 0 then (1 : ℚ) else b) ≠ 0) ∧
    ("packet_size" ∉ frame.cols → "total_l_fwd_packets" ∈ frame.cols →
      "total_fwd_packets" ∈ frame.cols →
      outVal (vectorize_payload frame) i "packet_size" =
        (match cellVal frame i "total_l_fwd_packets",
               cellVal frame i "total_fwd_packets" with
         | some a, some b => a / (if b = 0 then 1 else b)
         | _, _ => 0)) ∧
    (∀ f ∈ REQUIRED_FEATURES, f ≠ "packet_size" → f ∉ frame.cols →
      outVal (vectorize_payload frame) i f = 0) := by
  refine ⟨rfl, ?_, ?_, ?_, ?_⟩
  · unfold vectorize_payload
    simp [foldl_rows_length]
  · intro b
    split
    · norm_num
    · assumption
  · intro hps htl htf
    rw [outVal_eq_cellVal frame hi,
      foldl_cellVal_packet_size (by decide) hps htl htf hi]
    rcases cellVal frame i "total_l_fwd_packets" with _ | a <;>
      rcases cellVal frame i "total_fwd_packets" with _ | b <;> rfl
  · intro f hf hfps hfcols
    rw [outVal_eq_cellVal frame hi,
      foldl_cellVal_imputed hf hfcols hfps hi]
    rfl

/-- Witness for C9: a one-row frame holding only the two packet-count
columns (16 total length over 4 packets). -/
theorem C9_vectorize_total_and_derived_witness :
    (0 : ℕ) < 1 ∧
    (vectorize_payload
        ⟨["total_fwd_packets", "total_l_fwd_packets"],
         [fun s => if s = "total_fwd_packets" then some 4
                   else if s = "total_l_fwd_packets" then some 16 else none]⟩).cols =
      REQUIRED_FEATURES := by
  refine ⟨Nat.zero_lt_one, ?_⟩
  exact (C9_vectorize_total_and_derived
    ⟨["total_fwd_packets", "total_l_fwd_packets"],
     [fun s => if s = "total_fwd_packets" then some 4
               else if s = "total_l_fwd_packets" then some 16 else none]⟩
    0 (by norm_num)).1

end AegisCore
